import Mathlib

/-!
Verification of the collision-aware movement and camera-orbit core of the
3D maze scene (`cubemaps_environment_mapping.cpp`).

The movement core is shallowly embedded: float arithmetic is modelled by
exact rational arithmetic (`ℚ`), the camera trigonometry by real numbers
(`ℝ`).  Global mutable state (the obstacle and platform lists, the actor
position) becomes explicit parameters, and each frame-step becomes a pure
function from the pre-frame state to the post-frame state, following the
source line by line.
-/

/-- Component-wise 3D vector over exact rationals (models `glm::vec3`). -/
structure Vec3 where
  x : ℚ
  y : ℚ
  z : ℚ
deriving DecidableEq, Repr

/-- Axis-aligned box, `struct Box \x7b glm::vec3 min; glm::vec3 max; \x7d`. -/
structure Box where
  min : Vec3
  max : Vec3
deriving DecidableEq, Repr

/-- Sphere vs AABB collision test, lines 246-252 of the source:
clamp the center into the box on each axis, then compare the squared
distance against the squared radius (strict `<`). -/
def sphereIntersectsAABB (center : Vec3) (radius : ℚ) (b : Box) : Bool :=
  let x := max b.min.x (min center.x b.max.x)
  let y := max b.min.y (min center.y b.max.y)
  let z := max b.min.z (min center.z b.max.z)
  let distSq := (x - center.x) * (x - center.x) + (y - center.y) * (y - center.y)
      + (z - center.z) * (z - center.z)
  decide (distSq < radius * radius)

/-- Linear scan over the obstacle list, lines 254-259 of the source.
The global `obstacles` vector is passed explicitly. -/
def collidesWithAnyObstacle (obstacles : List Box) (center : Vec3) (radius : ℚ) : Bool :=
  obstacles.any (fun b => sphereIntersectsAABB center radius b)

/-- The horizontal-containment condition of the platform scan (line 266):
`x >= p.min.x && x <= p.max.x && z >= p.min.z && z <= p.max.z`. -/
def containsXZ (p : Box) (x z : ℚ) : Prop :=
  x ≥ p.min.x ∧ x ≤ p.max.x ∧ z ≥ p.min.z ∧ z ≤ p.max.z

instance (p : Box) (x z : ℚ) : Decidable (containsXZ p x z) := by
  unfold containsXZ; infer_instance

/-- One iteration of the platform loop of `highestPlatformTopAtXZ`
(lines 265-272): the accumulator is the pair `(found, best)`. -/
def platStep (x z : ℚ) (acc : Bool × ℚ) (p : Box) : Bool × ℚ :=
  if containsXZ p x z then
    if p.max.y > acc.2 then (true, p.max.y) else acc
  else acc

/-- Embeds `highestPlatformTopAtXZ`, lines 262-275 of the source: scan the
platform list with `found = false`, `best = -1e9`; report `best` through
the out-parameter (here: `Option`) iff `found` was set. -/
def highestPlatformTopAtXZ (platforms : List Box) (x z : ℚ) : Option ℚ :=
  let r := platforms.foldl (platStep x z) (false, -1000000000)
  if r.1 then some r.2 else none

/-- Horizontal collision resolution of `processInput`, lines 548-560:
force `desired.y = objectPos.y`, take the full move when free, otherwise
try the X-only candidate and then (from the possibly X-updated position)
the Z candidate. -/
def resolveHorizontalMove (obstacles : List Box) (cur des0 : Vec3) (radius : ℚ) : Vec3 :=
  let des : Vec3 := ⟨des0.x, cur.y, des0.z⟩
  if collidesWithAnyObstacle obstacles des radius = false then des
  else
    let afterX : Vec3 :=
      if collidesWithAnyObstacle obstacles ⟨des.x, cur.y, cur.z⟩ radius = false
      then ⟨des.x, cur.y, cur.z⟩ else cur
    if collidesWithAnyObstacle obstacles ⟨afterX.x, afterX.y, des.z⟩ radius = false
    then ⟨afterX.x, afterX.y, des.z⟩ else afterX

/-- The per-frame movement update of `processInput` (lines 548-567):
horizontal resolution followed by the vertical snap to the highest
supporting platform; when no platform supports the position the vertical
coordinate is left unchanged. -/
def processInputStep (obstacles platforms : List Box) (cur des0 : Vec3) (radius : ℚ) : Vec3 :=
  let p := resolveHorizontalMove obstacles cur des0 radius
  match highestPlatformTopAtXZ platforms p.x p.z with
  | some topY => ⟨p.x, topY, p.z⟩
  | none => p

/-- Constant `mouseSensitivity = 0.12f` (line 133). -/
def mouseSensitivity : ℚ := 12 / 100

/-- The state read and written by `mouse_callback`: the first-sample flag,
the last cursor sample and the orbit angles (lines 127-131). -/
structure CamState where
  firstMouse : Bool
  lastX : ℚ
  lastY : ℚ
  camYaw : ℚ
  camPitch : ℚ
deriving DecidableEq, Repr

/-- Embeds `mouse_callback`, lines 575-596 of the source: on the first sample the
stored cursor is overwritten before the offsets are computed; the scaled
offsets are added to yaw and pitch, and pitch is clamped to [-89, 89]. -/
def mouse_callback (st : CamState) (xpos ypos : ℚ) : CamState :=
  let lX := if st.firstMouse then xpos else st.lastX
  let lY := if st.firstMouse then ypos else st.lastY
  let xoffset := (xpos - lX) * mouseSensitivity
  let yoffset := (lY - ypos) * mouseSensitivity
  let pitch0 := st.camPitch + yoffset
  let pitch1 := if pitch0 > 89 then (89 : ℚ) else pitch0
  let pitch2 := if pitch1 < -89 then (-89 : ℚ) else pitch1
  ⟨false, xpos, ypos, st.camYaw + xoffset, pitch2⟩

/-- Embeds `scroll_callback`, lines 598-602: `camDistance -= yoffset * 0.4f`
followed by the clamp `max(1.2f, min(10.0f, camDistance))`. -/
def scroll_callback (camDistance yoffset : ℚ) : ℚ :=
  max (12 / 10) (min 10 (camDistance - yoffset * (4 / 10)))

/-- Constant `objectRadius = 0.5f` (line 142). -/
def objectRadius : ℚ := 1 / 2

/-- The ground platform `\x7b(-20, -0.1, -20), (20, 0, 20)\x7d` of the maze
layout (line 383). -/
def groundPlatform : Box := ⟨⟨-20, -1/10, -20⟩, ⟨20, 0, 20⟩⟩

/-- The platform list built at lines 382-385 of the source. -/
def mazePlatforms : List Box :=
  [ groundPlatform
  , ⟨⟨-12, 3/5, 6⟩, ⟨-4, 8/5, 10⟩⟩
  , ⟨⟨6, 11/10, -8⟩, ⟨12, 21/10, -2⟩⟩ ]

/-- The obstacle list built at lines 387-403 of the source. -/
def mazeObstacles : List Box :=
  [ ⟨⟨-39/2, 0, -39/2⟩, ⟨-37/2, 5/2, 39/2⟩⟩
  , ⟨⟨37/2, 0, -39/2⟩, ⟨39/2, 5/2, 39/2⟩⟩
  , ⟨⟨-39/2, 0, 37/2⟩, ⟨39/2, 5/2, 39/2⟩⟩
  , ⟨⟨-39/2, 0, -39/2⟩, ⟨39/2, 5/2, -37/2⟩⟩
  , ⟨⟨-12, 0, -12⟩, ⟨-11, 11/5, 6⟩⟩
  , ⟨⟨-6, 0, -6⟩, ⟨6, 2, -5⟩⟩
  , ⟨⟨5, 0, -3⟩, ⟨6, 2, 13⟩⟩
  , ⟨⟨-2, 0, 2⟩, ⟨10, 2, 3⟩⟩
  , ⟨⟨-10, 0, 15/2⟩, ⟨-1/2, 11/5, 17/2⟩⟩
  , ⟨⟨-4, 0, 4⟩, ⟨-3, 2, 14⟩⟩
  , ⟨⟨2, 0, 10⟩, ⟨4, 8/5, 12⟩⟩
  , ⟨⟨-8, 0, -3⟩, ⟨-13/2, 8/5, -1⟩⟩ ]

/-- A single box forming a diagonal corner; used to exercise the sliding
branch of the resolver. -/
def cornerObs : List Box := [⟨⟨1, -1, 1⟩, ⟨2, 1, 2⟩⟩]

/-- Clamping a coordinate into the interval [lo, hi], as the spec words
it ("clamping each coordinate of c into [min, max]"). -/
def clampCoord (lo hi v : ℚ) : ℚ := min hi (max lo v)

/-- The closest point of a box to a center, per the spec: clamp each
coordinate of the center into the box's [min, max] range. -/
def closestPointOnBox (c : Vec3) (b : Box) : Vec3 :=
  ⟨clampCoord b.min.x b.max.x c.x, clampCoord b.min.y b.max.y c.y,
   clampCoord b.min.z b.max.z c.z⟩

/-- Squared Euclidean distance between two points. -/
def dist2 (a b : Vec3) : ℚ :=
  (a.x - b.x) * (a.x - b.x) + (a.y - b.y) * (a.y - b.y) + (a.z - b.z) * (a.z - b.z)

/-- Component-wise 3D vector over the reals, for the camera trigonometry. -/
structure Vec3R where
  x : ℝ
  y : ℝ
  z : ℝ

/-- Conversion `glm::radians`: degrees to radians. -/
noncomputable def radiansR (d : ℝ) : ℝ := d * Real.pi / 180

/-- Normalization `glm::normalize`: divide each component by the Euclidean length. -/
noncomputable def normalizeR (v : Vec3R) : Vec3R :=
  let len := Real.sqrt (v.x * v.x + v.y * v.y + v.z * v.z)
  ⟨v.x / len, v.y / len, v.z / len⟩

/-- The per-frame camera position, lines 430-437 of the source:
`camPos = objectPos - forward * camDistance + (0, camDistance * sin(pitchRad), 0)`
with `forward = normalize(cos(yawRad), 0, sin(yawRad))`. -/
noncomputable def cameraPosition (camYaw camPitch camDistance : ℝ) (objectPos : Vec3R) : Vec3R :=
  let yawRad := radiansR camYaw
  let pitchRad := radiansR camPitch
  let fwd := normalizeR ⟨Real.cos yawRad, 0, Real.sin yawRad⟩
  let heightOffset := camDistance * Real.sin pitchRad
  ⟨objectPos.x - fwd.x * camDistance + 0,
   objectPos.y - fwd.y * camDistance + heightOffset,
   objectPos.z - fwd.z * camDistance + 0⟩

/-- The look target, lines 440-441: `camTarget = objectPos + (0, 0.8, 0)`. -/
noncomputable def cameraTarget (objectPos : Vec3R) : Vec3R :=
  ⟨objectPos.x + 0, objectPos.y + 8 / 10, objectPos.z + 0⟩

/-- The tops of the platforms whose horizontal span contains `(x, z)`. -/
def containTops (ps : List Box) (x z : ℚ) : List ℚ :=
  (ps.filter (fun p => decide (containsXZ p x z))).map (fun p => p.max.y)

/-- Closed form of the resolver: the four possible outcomes, keyed by the
three collision tests the source can perform.  When the X-only candidate is
free, the subsequent Z test is made against the full desired position
(which is blocked in that branch), so the X-only candidate is final. -/
lemma resolve_closed_form (obs : List Box) (cur des0 : Vec3) (r : ℚ) :
    resolveHorizontalMove obs cur des0 r =
      if collidesWithAnyObstacle obs ⟨des0.x, cur.y, des0.z⟩ r = false then
        ⟨des0.x, cur.y, des0.z⟩
      else if collidesWithAnyObstacle obs ⟨des0.x, cur.y, cur.z⟩ r = false then
        ⟨des0.x, cur.y, cur.z⟩
      else if collidesWithAnyObstacle obs ⟨cur.x, cur.y, des0.z⟩ r = false then
        ⟨cur.x, cur.y, des0.z⟩
      else cur := by
  cases h1 : collidesWithAnyObstacle obs ⟨des0.x, cur.y, des0.z⟩ r with
  | false => simp [resolveHorizontalMove, h1]
  | true =>
    cases h2 : collidesWithAnyObstacle obs ⟨des0.x, cur.y, cur.z⟩ r with
    | false => simp [resolveHorizontalMove, h1, h2]
    | true =>
      cases h3 : collidesWithAnyObstacle obs ⟨cur.x, cur.y, des0.z⟩ r with
      | false => simp [resolveHorizontalMove, h1, h2, h3]
      | true => simp [resolveHorizontalMove, h1, h2, h3]

/-- The resolver never changes the vertical coordinate. -/
lemma resolve_y_eq (obs : List Box) (cur des0 : Vec3) (r : ℚ) :
    (resolveHorizontalMove obs cur des0 r).y = cur.y := by
  rw [resolve_closed_form]
  split_ifs <;> rfl

/-- The `best` accumulator of the platform loop computes a running
maximum over the tops of the containing platforms. -/
lemma foldl_platStep_snd (x z : ℚ) (ps : List Box) : ∀ a : Bool × ℚ,
    (ps.foldl (platStep x z) a).2 = (containTops ps x z).foldl max a.2 := by
  induction ps with
  | nil => intro a; rfl
  | cons p ps ih =>
    intro a
    by_cases hc : containsXZ p x z
    · have hct : containTops (p :: ps) x z = p.max.y :: containTops ps x z := by
        simp [containTops, hc]
      rw [List.foldl_cons, hct, List.foldl_cons]
      by_cases hy : p.max.y > a.2
      · rw [show platStep x z a p = (true, p.max.y) from by simp [platStep, hc, hy], ih]
        congr 1
        exact (max_eq_right (le_of_lt hy)).symm
      · rw [show platStep x z a p = a from by simp [platStep, hc, hy], ih]
        congr 1
        exact (max_eq_left (not_lt.mp hy)).symm
    · have hct : containTops (p :: ps) x z = containTops ps x z := by
        simp [containTops, hc]
      rw [List.foldl_cons, hct,
        show platStep x z a p = a from by simp [platStep, hc]]
      exact ih a

/-- The `found` flag of the platform loop is set exactly when `best` has
moved strictly above the `-1e9` sentinel. -/
lemma foldl_platStep_fst (x z : ℚ) (ps : List Box) : ∀ a : Bool × ℚ,
    -1000000000 ≤ a.2 → (a.1 = true ↔ -1000000000 < a.2) →
    -1000000000 ≤ (ps.foldl (platStep x z) a).2 ∧
      ((ps.foldl (platStep x z) a).1 = true ↔
        -1000000000 < (ps.foldl (platStep x z) a).2) := by
  induction ps with
  | nil => intro a h1 h2; exact ⟨h1, h2⟩
  | cons p ps ih =>
    intro a h1 h2
    by_cases hc : containsXZ p x z
    · by_cases hy : p.max.y > a.2
      · rw [List.foldl_cons,
          show platStep x z a p = (true, p.max.y) from by simp [platStep, hc, hy]]
        exact ih _ (le_of_lt (lt_of_le_of_lt h1 hy))
          (by simpa using lt_of_le_of_lt h1 hy)
      · rw [List.foldl_cons, show platStep x z a p = a from by simp [platStep, hc, hy]]
        exact ih a h1 h2
    · rw [List.foldl_cons, show platStep x z a p = a from by simp [platStep, hc]]
      exact ih a h1 h2

/-- The seed is below a left fold of `max`. -/
lemma foldl_max_init_le (l : List ℚ) : ∀ b : ℚ, b ≤ l.foldl max b := by
  induction l with
  | nil => intro b; exact le_refl b
  | cons t l ih => intro b; exact le_trans (le_max_left b t) (ih (max b t))

/-- Every list element is below a left fold of `max`. -/
lemma foldl_max_mem_le (l : List ℚ) : ∀ (b t : ℚ), t ∈ l → t ≤ l.foldl max b := by
  induction l with
  | nil => intro b t ht; simp at ht
  | cons s l ih =>
    intro b t ht
    rcases List.mem_cons.mp ht with h | h
    · subst h; exact le_trans (le_max_right b t) (foldl_max_init_le l (max b t))
    · exact ih (max b s) t h

/-- A left fold of `max` is below any bound above the seed and elements. -/
lemma foldl_max_le (l : List ℚ) : ∀ b c : ℚ, b ≤ c → (∀ t ∈ l, t ≤ c) →
    l.foldl max b ≤ c := by
  induction l with
  | nil => intro b c hb _; exact hb
  | cons s l ih =>
    intro b c hb hall
    exact ih (max b s) c (max_le hb (hall s (by simp))) fun t ht => hall t (by simp [ht])

/-- A left fold of `max` is the seed or one of the elements. -/
lemma foldl_max_eq_or_mem (l : List ℚ) : ∀ b : ℚ,
    l.foldl max b = b ∨ l.foldl max b ∈ l := by
  induction l with
  | nil => intro b; left; rfl
  | cons s l ih =>
    intro b
    rw [List.foldl_cons]
    rcases ih (max b s) with h | h
    · rcases le_total s b with h1 | h1
      · left; rw [h]; exact max_eq_left h1
      · right; rw [h, max_eq_right h1]; exact List.mem_cons_self s l
    · right; exact List.mem_cons_of_mem s h

/-- Membership in the list of containing-platform tops. -/
lemma mem_containTops (ps : List Box) (x z t : ℚ) :
    t ∈ containTops ps x z ↔ ∃ p ∈ ps, containsXZ p x z ∧ p.max.y = t := by
  simp only [containTops, List.mem_map, List.mem_filter, decide_eq_true_eq]
  constructor
  · rintro ⟨p, ⟨hp, hc⟩, ht⟩; exact ⟨p, hp, hc, ht⟩
  · rintro ⟨p, hp, hc, ht⟩; exact ⟨p, ⟨hp, hc⟩, ht⟩

/-- Characterization of a successful support query: the reported height is
the maximum containing-platform top, and it lies strictly above the
`-1e9` sentinel. -/
lemma highest_some_iff (ps : List Box) (x z t : ℚ) :
    highestPlatformTopAtXZ ps x z = some t ↔
      (∃ p ∈ ps, containsXZ p x z ∧ p.max.y = t) ∧
      (∀ p ∈ ps, containsXZ p x z → p.max.y ≤ t) ∧ -1000000000 < t := by
  have hsnd := foldl_platStep_snd x z ps (false, -1000000000)
  obtain ⟨hle, hiff⟩ :=
    foldl_platStep_fst x z ps (false, -1000000000) (le_refl _) (by simp)
  constructor
  · intro h
    by_cases hb : (ps.foldl (platStep x z) (false, -1000000000)).1 = true
    · have h2 : (ps.foldl (platStep x z) (false, -1000000000)).2 = t := by
        have : highestPlatformTopAtXZ ps x z
            = some (ps.foldl (platStep x z) (false, -1000000000)).2 := by
          simp [highestPlatformTopAtXZ, hb]
        rw [this] at h
        exact Option.some.inj h
      have hMt : (containTops ps x z).foldl max (-1000000000) = t := by
        rw [← hsnd]; exact h2
      have hgt : -1000000000 < t := by rw [← h2]; exact hiff.mp hb
      refine ⟨?_, ?_, hgt⟩
      · rcases foldl_max_eq_or_mem (containTops ps x z) (-1000000000) with hm | hm
        · rw [hMt] at hm; exact absurd hm (ne_of_gt hgt)
        · rw [hMt] at hm; exact (mem_containTops ps x z t).mp hm
      · intro p hp hc
        have : p.max.y ∈ containTops ps x z :=
          (mem_containTops ps x z p.max.y).mpr ⟨p, hp, hc, rfl⟩
        have := foldl_max_mem_le (containTops ps x z) (-1000000000) p.max.y this
        rwa [hMt] at this
    · exfalso
      simp only [highestPlatformTopAtXZ, Bool.not_eq_true] at h hb
      rw [hb] at h
      simp at h
  · rintro ⟨⟨p, hp, hc, hpt⟩, hub, hgt⟩
    have htops : t ∈ containTops ps x z := (mem_containTops ps x z t).mpr ⟨p, hp, hc, hpt⟩
    have hget : t ≤ (containTops ps x z).foldl max (-1000000000) :=
      foldl_max_mem_le (containTops ps x z) (-1000000000) t htops
    have hub2 : (containTops ps x z).foldl max (-1000000000) ≤ t := by
      refine foldl_max_le (containTops ps x z) (-1000000000) t (le_of_lt hgt) ?_
      intro s hs
      obtain ⟨q, hq, hqc, hqt⟩ := (mem_containTops ps x z s).mp hs
      rw [← hqt]; exact hub q hq hqc
    have hM : (containTops ps x z).foldl max (-1000000000) = t := le_antisymm hub2 hget
    have h2 : (ps.foldl (platStep x z) (false, -1000000000)).2 = t := by rw [hsnd, hM]
    have hb : (ps.foldl (platStep x z) (false, -1000000000)).1 = true := by
      refine hiff.mpr ?_
      rw [h2]; exact hgt
    simp [highestPlatformTopAtXZ, hb, h2]

/-- Characterization of a failed support query: every containing platform
top (if any) lies at or below the `-1e9` sentinel. -/
lemma highest_none_iff (ps : List Box) (x z : ℚ) :
    highestPlatformTopAtXZ ps x z = none ↔
      ∀ p ∈ ps, containsXZ p x z → p.max.y ≤ -1000000000 := by
  have hsnd := foldl_platStep_snd x z ps (false, -1000000000)
  obtain ⟨hle, hiff⟩ :=
    foldl_platStep_fst x z ps (false, -1000000000) (le_refl _) (by simp)
  constructor
  · intro h p hp hc
    have hb : (ps.foldl (platStep x z) (false, -1000000000)).1 = false := by
      by_contra hb
      rw [Bool.not_eq_false] at hb
      simp [highestPlatformTopAtXZ, hb] at h
    have h2 : (ps.foldl (platStep x z) (false, -1000000000)).2 ≤ -1000000000 := by
      by_contra h2
      have h3 := hiff.mpr (not_le.mp h2)
      rw [hb] at h3
      exact Bool.false_ne_true h3
    have hmem : p.max.y ∈ containTops ps x z :=
      (mem_containTops ps x z p.max.y).mpr ⟨p, hp, hc, rfl⟩
    have := foldl_max_mem_le (containTops ps x z) (-1000000000) p.max.y hmem
    rw [← hsnd] at this
    exact le_trans this h2
  · intro hall
    have hub : (containTops ps x z).foldl max (-1000000000) ≤ -1000000000 := by
      refine foldl_max_le (containTops ps x z) (-1000000000) (-1000000000) (le_refl _) ?_
      intro s hs
      obtain ⟨q, hq, hqc, hqt⟩ := (mem_containTops ps x z s).mp hs
      rw [← hqt]; exact hall q hq hqc
    have hb : (ps.foldl (platStep x z) (false, -1000000000)).1 = false := by
      by_contra hb
      rw [Bool.not_eq_false] at hb
      have := hiff.mp hb
      rw [hsnd] at this
      exact absurd this (not_lt.mpr hub)
    simp [highestPlatformTopAtXZ, hb]

/-- The horizontal forward vector built from the yaw is already a unit
vector, so `glm::normalize` leaves it unchanged. -/
lemma normalizeR_yaw (a : ℝ) :
    normalizeR ⟨Real.cos a, 0, Real.sin a⟩ = ⟨Real.cos a, 0, Real.sin a⟩ := by
  have h : Real.cos a * Real.cos a + 0 * 0 + Real.sin a * Real.sin a = 1 := by
    have h2 := Real.sin_sq_add_cos_sq a
    linear_combination h2
  simp only [normalizeR]
  rw [h, Real.sqrt_one]
  simp

/-- Claim C1: starting from a non-colliding position, the position produced
by one horizontal-move resolution step (full desired move if unblocked,
otherwise axis-separated sliding) never collides with any obstacle box;
a candidate is blocked exactly when its sphere overlaps at least one
obstacle box, and the blocked test is invariant under permuting the
obstacle set. -/
theorem resolver_result_never_collides (obs obs2 : List Box) (cur des0 c : Vec3) (r : ℚ) :
    (collidesWithAnyObstacle obs cur r = false →
      collidesWithAnyObstacle obs (resolveHorizontalMove obs cur des0 r) r = false)
    ∧ (collidesWithAnyObstacle obs c r = true ↔
        ∃ b ∈ obs, sphereIntersectsAABB c r b = true)
    ∧ (obs.Perm obs2 → collidesWithAnyObstacle obs c r = collidesWithAnyObstacle obs2 c r) := by
  refine ⟨?_, ?_, ?_⟩
  · intro hcur
    rw [resolve_closed_form]
    split_ifs with h1 h2 h3
    · exact h1
    · exact h2
    · exact h3
    · exact hcur
  · simp [collidesWithAnyObstacle, List.any_eq_true]
  · intro hperm
    simp only [collidesWithAnyObstacle]
    refine Bool.eq_iff_iff.mpr ?_
    simp only [List.any_eq_true]
    constructor
    · rintro ⟨b, hb, hf⟩; exact ⟨b, hperm.mem_iff.mp hb, hf⟩
    · rintro ⟨b, hb, hf⟩; exact ⟨b, hperm.mem_iff.mpr hb, hf⟩

/-- Witness for C1: the actor starts at (-17, 0, -17) free of the maze
walls; pushing straight into the west boundary wall leaves it at a
non-colliding position. -/
theorem resolver_result_never_collides_witness :
    collidesWithAnyObstacle mazeObstacles
      (resolveHorizontalMove mazeObstacles ⟨-17, 0, -17⟩ ⟨-19, 0, -17⟩ objectRadius)
      objectRadius = false :=
  (resolver_result_never_collides mazeObstacles mazeObstacles
      ⟨-17, 0, -17⟩ ⟨-19, 0, -17⟩ ⟨0, 0, 0⟩ objectRadius).1
    (by norm_num [collidesWithAnyObstacle, sphereIntersectsAABB, mazeObstacles, objectRadius])

/-- Claim C9: resolving a zero-displacement move from a non-colliding
position returns the position unchanged. -/
theorem resolver_stationary_fixed_point (obs : List Box) (p : Vec3) (r : ℚ)
    (h : collidesWithAnyObstacle obs p r = false) :
    resolveHorizontalMove obs p p r = p := by
  have hd : (⟨p.x, p.y, p.z⟩ : Vec3) = p := rfl
  simp only [resolveHorizontalMove, hd, h]
  simp

/-- Witness for C9 at the actual start position inside the maze. -/
theorem resolver_stationary_fixed_point_witness :
    resolveHorizontalMove mazeObstacles ⟨-17, 0, -17⟩ ⟨-17, 0, -17⟩ objectRadius
      = ⟨-17, 0, -17⟩ :=
  resolver_stationary_fixed_point mazeObstacles ⟨-17, 0, -17⟩ objectRadius
    (by norm_num [collidesWithAnyObstacle, sphereIntersectsAABB, mazeObstacles, objectRadius])

/-- Claim C10: each coordinate of the resolved position is taken from only
two possible values - X from the current or desired X, Z from the current
or desired Z - and Y always equals the current Y (the desired Y is
overwritten with the current Y before any collision testing); no scaled or
pushed-out coordinate ever appears. -/
theorem resolver_coordinates_from_endpoints (obs : List Box) (cur des0 : Vec3) (r : ℚ) :
    ((resolveHorizontalMove obs cur des0 r).x = cur.x ∨
      (resolveHorizontalMove obs cur des0 r).x = des0.x)
    ∧ ((resolveHorizontalMove obs cur des0 r).z = cur.z ∨
      (resolveHorizontalMove obs cur des0 r).z = des0.z)
    ∧ (resolveHorizontalMove obs cur des0 r).y = cur.y := by
  rw [resolve_closed_form]
  refine ⟨?_, ?_, ?_⟩ <;> split_ifs <;> simp

/-- The two ways of clamping a value into [lo, hi] agree when lo ≤ hi. -/
lemma clamp_swap (lo hi v : ℚ) (h : lo ≤ hi) :
    max lo (min v hi) = min hi (max lo v) := by
  simp only [min_def, max_def]
  split_ifs <;> linarith

/-- Claim C2: the sphere-vs-AABB test returns true iff the squared
Euclidean distance from the center to the closest point of the box
(clamping each coordinate into [min, max]) is strictly below the squared
radius; an exactly tangent sphere does not register as a collision. -/
theorem sphere_box_test_matches_closest_point (c : Vec3) (r : ℚ) (b : Box)
    (hx : b.min.x ≤ b.max.x) (hy : b.min.y ≤ b.max.y) (hz : b.min.z ≤ b.max.z) :
    (sphereIntersectsAABB c r b = true ↔ dist2 c (closestPointOnBox c b) < r * r)
    ∧ (dist2 c (closestPointOnBox c b) = r * r → sphereIntersectsAABB c r b = false) := by
  have ex : dist2 c (closestPointOnBox c b) =
      (max b.min.x (min c.x b.max.x) - c.x) * (max b.min.x (min c.x b.max.x) - c.x)
      + (max b.min.y (min c.y b.max.y) - c.y) * (max b.min.y (min c.y b.max.y) - c.y)
      + (max b.min.z (min c.z b.max.z) - c.z) * (max b.min.z (min c.z b.max.z) - c.z) := by
    simp only [dist2, closestPointOnBox, clampCoord]
    rw [clamp_swap _ _ _ hx, clamp_swap _ _ _ hy, clamp_swap _ _ _ hz]
    ring
  constructor
  · simp only [sphereIntersectsAABB, decide_eq_true_eq]
    rw [ex]
  · intro h
    simp only [sphereIntersectsAABB, decide_eq_false_iff_not]
    rw [← ex, h]
    exact lt_irrefl _

/-- Witness for C2: a unit sphere exactly tangent to the unit box
(distance 1 from the x = 1 face) does not collide. -/
theorem sphere_box_test_matches_closest_point_witness :
    sphereIntersectsAABB ⟨2, 1/2, 1/2⟩ 1 ⟨⟨0, 0, 0⟩, ⟨1, 1, 1⟩⟩ = false :=
  (sphere_box_test_matches_closest_point ⟨2, 1/2, 1/2⟩ 1 ⟨⟨0, 0, 0⟩, ⟨1, 1, 1⟩⟩
      (by norm_num) (by norm_num) (by norm_num)).2
    (by norm_num [dist2, closestPointOnBox, clampCoord])

/-- Counterexample to C3: at a diagonal corner the full move is blocked,
both single-axis candidates built from the pre-move position are free,
yet the code resolves to (1, 0, 0): the Z axis is not applied, because
after the X update the Z candidate is rebuilt from the updated X (it
equals the blocked full move), not from the pre-move X as the claim
states. -/
theorem sliding_z_axis_not_independent_cex :
    collidesWithAnyObstacle cornerObs ⟨1, 0, 1⟩ objectRadius = true
    ∧ collidesWithAnyObstacle cornerObs ⟨1, 0, 0⟩ objectRadius = false
    ∧ collidesWithAnyObstacle cornerObs ⟨0, 0, 1⟩ objectRadius = false
    ∧ resolveHorizontalMove cornerObs ⟨0, 0, 0⟩ ⟨1, 0, 1⟩ objectRadius = ⟨1, 0, 0⟩ := by
  have h1 : collidesWithAnyObstacle cornerObs ⟨1, 0, 1⟩ objectRadius = true := by
    norm_num [collidesWithAnyObstacle, sphereIntersectsAABB, cornerObs, objectRadius]
  have h2 : collidesWithAnyObstacle cornerObs ⟨1, 0, 0⟩ objectRadius = false := by
    norm_num [collidesWithAnyObstacle, sphereIntersectsAABB, cornerObs, objectRadius]
  have h3 : collidesWithAnyObstacle cornerObs ⟨0, 0, 1⟩ objectRadius = false := by
    norm_num [collidesWithAnyObstacle, sphereIntersectsAABB, cornerObs, objectRadius]
  refine ⟨h1, h2, h3, ?_⟩
  rw [resolve_closed_form]
  simp [h1, h2]

/-- Claim C3 (amended): when the full move is blocked the axes are tried
sequentially, not independently: the X-only candidate keeps the current Z
and is final when free (the subsequent Z test is then made against the
blocked full desired position); only when the X candidate is blocked is
the Z candidate built from the current X and applied iff free.  In
particular, if the full move collides and the X-only candidate does not,
the resolved position is (desired X, current Y, current Z). -/
theorem sliding_sequential_spec (obs : List Box) (cur des0 : Vec3) (r : ℚ)
    (hblocked : collidesWithAnyObstacle obs ⟨des0.x, cur.y, des0.z⟩ r = true) :
    (collidesWithAnyObstacle obs ⟨des0.x, cur.y, cur.z⟩ r = false →
      resolveHorizontalMove obs cur des0 r = ⟨des0.x, cur.y, cur.z⟩)
    ∧ (collidesWithAnyObstacle obs ⟨des0.x, cur.y, cur.z⟩ r = true →
      resolveHorizontalMove obs cur des0 r =
        if collidesWithAnyObstacle obs ⟨cur.x, cur.y, des0.z⟩ r = false
        then ⟨cur.x, cur.y, des0.z⟩ else cur) := by
  constructor
  · intro hx
    rw [resolve_closed_form]
    simp [hblocked, hx]
  · intro hx
    rw [resolve_closed_form]
    simp [hblocked, hx]

/-- Witness for C3: at the diagonal corner the blocked move with a free
X-only candidate resolves to (desired X, current Y, current Z). -/
theorem sliding_sequential_spec_witness :
    resolveHorizontalMove cornerObs ⟨0, 0, 0⟩ ⟨1, 0, 1⟩ objectRadius = ⟨1, 0, 0⟩ :=
  (sliding_sequential_spec cornerObs ⟨0, 0, 0⟩ ⟨1, 0, 1⟩ objectRadius
      (by norm_num [collidesWithAnyObstacle, sphereIntersectsAABB, cornerObs,
        objectRadius])).1
    (by norm_num [collidesWithAnyObstacle, sphereIntersectsAABB, cornerObs, objectRadius])

/-- Counterexample to C4: at the diagonal corner both single-axis
candidates are free, yet only X advances: the resolved Z stays at the
current 0 instead of the desired 1, so both axes do not apply in the same
frame. -/
theorem sliding_both_axes_cex :
    collidesWithAnyObstacle cornerObs ⟨1, 0, 1⟩ objectRadius = true
    ∧ collidesWithAnyObstacle cornerObs ⟨1, 0, 0⟩ objectRadius = false
    ∧ collidesWithAnyObstacle cornerObs ⟨0, 0, 1⟩ objectRadius = false
    ∧ (resolveHorizontalMove cornerObs ⟨0, 0, 0⟩ ⟨1, 0, 1⟩ objectRadius).x = 1
    ∧ (resolveHorizontalMove cornerObs ⟨0, 0, 0⟩ ⟨1, 0, 1⟩ objectRadius).z = 0
    ∧ (0 : ℚ) ≠ 1 := by
  have h1 : collidesWithAnyObstacle cornerObs ⟨1, 0, 1⟩ objectRadius = true := by
    norm_num [collidesWithAnyObstacle, sphereIntersectsAABB, cornerObs, objectRadius]
  have h2 : collidesWithAnyObstacle cornerObs ⟨1, 0, 0⟩ objectRadius = false := by
    norm_num [collidesWithAnyObstacle, sphereIntersectsAABB, cornerObs, objectRadius]
  have h3 : collidesWithAnyObstacle cornerObs ⟨0, 0, 1⟩ objectRadius = false := by
    norm_num [collidesWithAnyObstacle, sphereIntersectsAABB, cornerObs, objectRadius]
  have hr : resolveHorizontalMove cornerObs ⟨0, 0, 0⟩ ⟨1, 0, 1⟩ objectRadius
      = ⟨1, 0, 0⟩ := by
    rw [resolve_closed_form]
    simp [h1, h2]
  refine ⟨h1, h2, h3, by rw [hr], by rw [hr], by norm_num⟩

/-- Claim C4 (amended): when the full displacement is blocked, at most one
axis is ever applied in a frame: at least one coordinate of the resolved
position stays at its current value, and the resolved position equals the
full desired position only in the degenerate case where that desired
position coincides with the current one. -/
theorem sliding_at_most_one_axis (obs : List Box) (cur des0 : Vec3) (r : ℚ)
    (hblocked : collidesWithAnyObstacle obs ⟨des0.x, cur.y, des0.z⟩ r = true) :
    ((resolveHorizontalMove obs cur des0 r).x = cur.x ∨
      (resolveHorizontalMove obs cur des0 r).z = cur.z)
    ∧ (resolveHorizontalMove obs cur des0 r = ⟨des0.x, cur.y, des0.z⟩ →
        des0.x = cur.x ∧ des0.z = cur.z) := by
  cases h2 : collidesWithAnyObstacle obs ⟨des0.x, cur.y, cur.z⟩ r with
  | false =>
    constructor
    · right
      rw [resolve_closed_form]
      simp [hblocked, h2]
    · intro he
      rw [resolve_closed_form] at he
      simp [hblocked, h2] at he
      exfalso
      rw [he] at h2
      rw [h2] at hblocked
      exact Bool.false_ne_true hblocked
  | true =>
    cases h3 : collidesWithAnyObstacle obs ⟨cur.x, cur.y, des0.z⟩ r with
    | false =>
      constructor
      · left
        rw [resolve_closed_form]
        simp [hblocked, h2, h3]
      · intro he
        rw [resolve_closed_form] at he
        simp [hblocked, h2, h3] at he
        exfalso
        rw [he] at h3
        rw [h3] at hblocked
        exact Bool.false_ne_true hblocked
    | true =>
      constructor
      · left
        rw [resolve_closed_form]
        simp [hblocked, h2, h3]
      · intro he
        rw [resolve_closed_form] at he
        simp [hblocked, h2, h3] at he
        exact ⟨by rw [he], by rw [he]⟩

/-- Witness for C4: instantiating the amended claim at the corner. -/
theorem sliding_at_most_one_axis_witness :
    (resolveHorizontalMove cornerObs ⟨0, 0, 0⟩ ⟨1, 0, 1⟩ objectRadius).x = 0 ∨
    (resolveHorizontalMove cornerObs ⟨0, 0, 0⟩ ⟨1, 0, 1⟩ objectRadius).z = 0 :=
  (sliding_at_most_one_axis cornerObs ⟨0, 0, 0⟩ ⟨1, 0, 1⟩ objectRadius
      (by norm_num [collidesWithAnyObstacle, sphereIntersectsAABB, cornerObs,
        objectRadius])).1

/-- Counterexample to C5: a platform whose top lies at the internal
`-1e9` sentinel contains the query point, yet the query reports no
support, because the scan only accepts tops strictly above the sentinel. -/
theorem support_height_sentinel_cex :
    containsXZ ⟨⟨0, -2000000000, 0⟩, ⟨1, -1000000000, 1⟩⟩ (1/2) (1/2)
    ∧ highestPlatformTopAtXZ [⟨⟨0, -2000000000, 0⟩, ⟨1, -1000000000, 1⟩⟩]
        (1/2) (1/2) = none := by
  constructor
  · norm_num [containsXZ]
  · norm_num [highestPlatformTopAtXZ, platStep, containsXZ]

/-- Claim C5 (amended): the support query returns the maximum top among
the containing platforms provided that maximum lies strictly above the
`-1e9` sentinel used to seed the scan, and reports no support exactly
when every containing platform's top is at or below the sentinel (in
particular when no platform contains the point); on the single ground
platform of the maze, the query at (0,0) returns 0 and at (100,100)
reports no support. -/
theorem support_height_max_of_containing (ps : List Box) (x z t : ℚ) :
    (highestPlatformTopAtXZ ps x z = some t ↔
      (∃ p ∈ ps, containsXZ p x z ∧ p.max.y = t)
      ∧ (∀ p ∈ ps, containsXZ p x z → p.max.y ≤ t)
      ∧ -1000000000 < t)
    ∧ (highestPlatformTopAtXZ ps x z = none ↔
      ∀ p ∈ ps, containsXZ p x z → p.max.y ≤ -1000000000)
    ∧ highestPlatformTopAtXZ [groundPlatform] 0 0 = some 0
    ∧ highestPlatformTopAtXZ [groundPlatform] 100 100 = none := by
  refine ⟨highest_some_iff ps x z t, highest_none_iff ps x z, ?_, ?_⟩
  · norm_num [highestPlatformTopAtXZ, platStep, containsXZ, groundPlatform]
  · norm_num [highestPlatformTopAtXZ, platStep, containsXZ, groundPlatform]

/-- Witness for C5: the amended characterization applied on the ground
platform at an interior point. -/
theorem support_height_max_of_containing_witness :
    highestPlatformTopAtXZ [groundPlatform] 5 5 = some 0 :=
  (support_height_max_of_containing [groundPlatform] 5 5 0).1.mpr
    ⟨⟨groundPlatform, List.mem_singleton.mpr rfl,
        by norm_num [containsXZ, groundPlatform], by norm_num [groundPlatform]⟩,
     fun p hp hc => by
       simp only [List.mem_singleton] at hp
       subst hp
       norm_num [groundPlatform],
     by norm_num⟩

/-- Claim C6: the support query signals absence through an explicit
not-found outcome, and when no platform contains the resolved horizontal
position the per-frame update leaves the vertical coordinate exactly
unchanged. -/
theorem support_absent_holds_height (ps obs : List Box) (cur des0 : Vec3) (r : ℚ)
    (habs : ∀ p ∈ ps, ¬ containsXZ p (resolveHorizontalMove obs cur des0 r).x
      (resolveHorizontalMove obs cur des0 r).z) :
    highestPlatformTopAtXZ ps (resolveHorizontalMove obs cur des0 r).x
      (resolveHorizontalMove obs cur des0 r).z = none
    ∧ (processInputStep obs ps cur des0 r).y = cur.y := by
  have hnone : highestPlatformTopAtXZ ps (resolveHorizontalMove obs cur des0 r).x
      (resolveHorizontalMove obs cur des0 r).z = none :=
    (highest_none_iff ps _ _).mpr fun p hp hc => absurd hc (habs p hp)
  refine ⟨hnone, ?_⟩
  simp only [processInputStep]
  rw [hnone]
  exact resolve_y_eq obs cur des0 r

/-- Witness for C6: off the world, at (100, 100), no platform supports the
actor and its height stays at 5. -/
theorem support_absent_holds_height_witness :
    (processInputStep [] [groundPlatform] ⟨100, 5, 100⟩ ⟨100, 5, 100⟩
      objectRadius).y = 5 :=
  (support_absent_holds_height [groundPlatform] [] ⟨100, 5, 100⟩ ⟨100, 5, 100⟩
    objectRadius
    (by
      intro p hp
      simp only [List.mem_singleton] at hp
      subst hp
      norm_num [resolveHorizontalMove, collidesWithAnyObstacle, containsXZ,
        groundPlatform])).2

/-- Counterexample to C7: a large negative scroll delta leaves the
distance at 10.0, not at 1.2 as the claim pairs it, because the callback
subtracts the scaled delta from the distance. -/
theorem scroll_direction_cex :
    scroll_callback 3 (-1000) = 10 ∧ (10 : ℚ) ≠ 12/10 := by
  constructor
  · norm_num [scroll_callback]
  · norm_num

/-- Claim C7 (amended): after every pointer update the pitch lies in
[-89, 89] and a pitch delta pushing at or past 89 pins it at exactly 89;
after every scroll update the distance lies in [1.2, 10.0], and since the
callback subtracts the scaled delta, arbitrarily large positive scroll
deltas clamp the distance to exactly 1.2 and arbitrarily large negative
ones to exactly 10.0. -/
theorem camera_orbit_clamps (st : CamState) (xpos ypos d yo : ℚ) :
    (-89 ≤ (mouse_callback st xpos ypos).camPitch
      ∧ (mouse_callback st xpos ypos).camPitch ≤ 89)
    ∧ (st.firstMouse = false →
        89 ≤ st.camPitch + (st.lastY - ypos) * mouseSensitivity →
        (mouse_callback st xpos ypos).camPitch = 89)
    ∧ (12/10 ≤ scroll_callback d yo ∧ scroll_callback d yo ≤ 10)
    ∧ (d - yo * (4/10) ≤ 12/10 → scroll_callback d yo = 12/10)
    ∧ (10 ≤ d - yo * (4/10) → scroll_callback d yo = 10) := by
  refine ⟨?_, ?_, ?_, ?_, ?_⟩
  · constructor <;> (simp only [mouse_callback]; split_ifs <;> linarith)
  · intro hfm hge
    simp only [mouse_callback, hfm]
    split_ifs <;> first | linarith | simp_all
  · exact ⟨le_max_left _ _, max_le (by norm_num) (min_le_left _ _)⟩
  · intro h
    simp only [scroll_callback]
    rw [min_eq_right (by linarith : d - yo * (4/10) ≤ 10), max_eq_left h]
  · intro h
    simp only [scroll_callback]
    rw [min_eq_left h, max_eq_right (by norm_num)]

/-- Witness for C7: a huge upward pointer delta pins the pitch at 89, and
a huge positive scroll delta clamps the distance to 1.2. -/
theorem camera_orbit_clamps_witness :
    (mouse_callback ⟨false, 0, 0, 0, 0⟩ 0 (-10000)).camPitch = 89
    ∧ scroll_callback 3 1000 = 12/10 :=
  ⟨(camera_orbit_clamps ⟨false, 0, 0, 0, 0⟩ 0 (-10000) 3 1000).2.1 rfl
      (by norm_num [mouseSensitivity]),
   (camera_orbit_clamps ⟨false, 0, 0, 0, 0⟩ 0 (-10000) 3 1000).2.2.2.1 (by norm_num)⟩

/-- Claim C8: the derived camera position is the boom-arm formula - the
target minus the yaw-built unit forward vector scaled by the distance,
plus a purely vertical offset `distance * sin(pitch)` (pitch affects only
the vertical component) - and the look target is the target position
raised by the fixed 0.8 eye-height offset, independent of yaw, pitch and
distance. -/
theorem camera_boom_arm_formula (camYaw camPitch camDistance : ℝ) (objectPos : Vec3R) :
    cameraPosition camYaw camPitch camDistance objectPos =
      ⟨objectPos.x - Real.cos (radiansR camYaw) * camDistance,
       objectPos.y + camDistance * Real.sin (radiansR camPitch),
       objectPos.z - Real.sin (radiansR camYaw) * camDistance⟩
    ∧ cameraTarget objectPos = ⟨objectPos.x, objectPos.y + 8/10, objectPos.z⟩ := by
  constructor
  · simp only [cameraPosition, normalizeR_yaw]
    congr 1 <;> ring
  · simp only [cameraTarget]
    congr 1 <;> ring
